import Mathlib

/-!
Shallow embedding of the market-data fetch scripts of this repository
(scripts/twelvedata.py), together with theorems settling the specification
claims about the rate-limited request client (td_get), the credit-exhaustion
classifier (is_credit_exhausted), the batch time-series fetcher
(fetch_time_series), the indicator fetchers (fetch_rsi, fetch_sma, fetch_ema),
the merge utility (merge_on_datetime), the symbol loader
(load_symbols_from_csv) and the batch orchestrator (main).

Machine-level conventions of the embedding:
- JSON payloads are modelled only at the fields the code inspects
  (status, code, message, values, per-symbol blocks).
- Python string operations are modelled over the character list of a
  Lean String: lowercasing is ASCII lowercasing, substring containment is
  containment of the character list, and string comparison is lexicographic
  comparison of character code points, matching the behaviour of the
  scripts on the ASCII payloads they handle.
- pandas primitives (to_numeric, to_datetime, sort_values, merge) are external
  collaborators per the spec; they are embedded as explicit Lean functions
  with the documented semantics: to_numeric and to_datetime appear as
  parser parameters, sort_values as a comparison sort with the given lex key,
  and merge(how=left) as the standard left join that emits one output row per
  matching right row and a null-valued row when there is no match.
-/

/-! ## Python string helpers -/

/-- ASCII lowercasing of one character, the behaviour of Python str.lower on
the ASCII payload messages the scripts classify. -/
def asciiLower (c : Char) : Char :=
  if 65 ≤ c.toNat ∧ c.toNat ≤ 90 then Char.ofNat (c.toNat + 32) else c

/-- Embedding of Python str.lower (ASCII fragment). -/
def pyLower (s : String) : String := ⟨s.data.map asciiLower⟩

/-- Embedding of the Python substring test (needle in hay). -/
def substrB (needle hay : String) : Bool :=
  (List.range (hay.data.length + 1)).any fun i => needle.data.isPrefixOf (hay.data.drop i)

/-! ## JSON payload model for the request client

The request client td_get inspects a decoded JSON payload only through
isinstance(data, dict), data.get(status), data.get(code) and
data.get(message).  A payload is therefore modelled as either a dictionary
carrying those three optional fields or a non-dictionary value. -/

/-- Fields of a JSON dictionary payload that the request client reads. -/
structure JsonDict where
  status : Option String
  code : Option Int
  message : Option String
deriving DecidableEq

/-- Decoded JSON payload as seen by the request client. -/
inductive Json where
  | dict (d : JsonDict)
  | nonDict
deriving DecidableEq

/-- Embedding of the empty Python dictionary produced after a JSON parse
failure with a non-error HTTP status. -/
def emptyJson : Json := .dict ⟨none, none, none⟩

/-- Value of payload.get(status) with the isinstance(dict) guard. -/
def Json.getStatus : Json → Option String
  | .dict d => d.status
  | .nonDict => none

/-- Lowercased message of the payload: str(data.get(message, "")).lower(). -/
def Json.msgLower : Json → String
  | .dict d => pyLower (d.message.getD "")
  | .nonDict => ""

/-- Test on line 57 of scripts/twelvedata.py: isinstance(data, dict) and
data.get(status) == error and data.get(code) == 429. -/
def is429RateLimit : Json → Bool
  | .dict d => d.status == some "error" && d.code == some (429 : Int)
  | .nonDict => false

/-- Embedding of _is_credit_exhausted (scripts/twelvedata.py lines 30-36):
a dictionary payload with status error whose lowercased message contains
credit, credits, quota or limit. -/
def is_credit_exhausted : Json → Bool
  | .nonDict => false
  | .dict d =>
    if d.status ≠ some "error" then false
    else
      let msg := pyLower (d.message.getD "")
      substrB "credit" msg || substrB "credits" msg ||
        substrB "quota" msg || substrB "limit" msg

/-! ## The rate-limited request client td_get -/

/-- One HTTP response as seen after requests.get: either a JSON-decodable
body, or a non-JSON body together with whether raise_for_status raises. -/
structure HttpResp where
  body : Option Json
  httpErr : Bool
deriving DecidableEq

/-- Effective payload of one attempt: a parsed body is used as is; on a JSON
parse failure, raise_for_status either raises (none) or the code continues
with an empty dictionary. -/
def effData (r : HttpResp) : Option Json :=
  match r.body with
  | some j => some j
  | none => if r.httpErr then none else some emptyJson

/-- Sleep calls issued by td_get, in order: the minute rate-limit backoff of
max(60, backoff_base * (attempt + 1)) seconds, the generic 429 backoff of
backoff_base * (attempt + 1) seconds, and the fixed post-call delay taken
before a normal return when the sleep argument is positive. -/
inductive SleepEvent where
  | minuteBackoff (secs : Nat)
  | genericBackoff (secs : Nat)
  | postCallDelay
deriving DecidableEq

/-- Result of td_get: a normal return of the payload, the RuntimeError raised
on credit exhaustion, the RuntimeError raised when the stop file exists, or
the HTTPError raised by raise_for_status on a non-JSON body. -/
inductive TdResult where
  | ret (data : Json)
  | creditsExhaustedError (data : Json)
  | stopFileError
  | httpStatusError
deriving DecidableEq

/-- Attempt loop of td_get (scripts/twelvedata.py lines 47-77).  The
environment is a function from attempt index to HTTP response and a function
from attempt index to the stop-file check; fuel counts remaining loop
iterations (max_retries + 1 at entry); lastData is the payload of the
previous iteration, returned when the loop exhausts its range. -/
def td_get_go (resp : Nat → HttpResp) (stopFile : Nat → Bool) (sleepPos : Bool)
    (backoff_base : Nat) (stop_on_daily_limit : Bool) :
    Nat → Nat → Json → List SleepEvent → TdResult × List SleepEvent
  | _, 0, lastData, log => (.ret lastData, log)
  | attempt, fuel + 1, _, log =>
    if stopFile attempt then (.stopFileError, log)
    else
      match effData (resp attempt) with
      | none => (.httpStatusError, log)
      | some data =>
        if is429RateLimit data then
          if substrB "minute" data.msgLower then
            td_get_go resp stopFile sleepPos backoff_base stop_on_daily_limit
              (attempt + 1) fuel data
              (log ++ [.minuteBackoff (max 60 (backoff_base * (attempt + 1)))])
          else if stop_on_daily_limit && substrB "day" data.msgLower then
            (.ret data, log)
          else
            td_get_go resp stopFile sleepPos backoff_base stop_on_daily_limit
              (attempt + 1) fuel data
              (log ++ [.genericBackoff (backoff_base * (attempt + 1))])
        else if is_credit_exhausted data then
          (.creditsExhaustedError data, log)
        else
          (.ret data, log ++ if sleepPos then [.postCallDelay] else [])

/-- Embedding of td_get (scripts/twelvedata.py lines 38-77): runs the attempt
loop for max_retries + 1 iterations starting at attempt 0 with an empty sleep
log.  The placeholder third argument is never returned because the loop body
runs at least once. -/
def td_get (resp : Nat → HttpResp) (stopFile : Nat → Bool) (sleepPos : Bool)
    (max_retries backoff_base : Nat) (stop_on_daily_limit : Bool) :
    TdResult × List SleepEvent :=
  td_get_go resp stopFile sleepPos backoff_base stop_on_daily_limit
    0 (max_retries + 1) Json.nonDict []

/-! ## Decimal rendering of Python integers

Python builds the indicator column names with f-strings such as sma_ followed
by str(window).  The decimal rendering of a natural number is embedded with
explicit fuel so that it is structurally recursive and executable. -/

/-- Numeric value of a decimal digit character. -/
def digitVal (c : Char) : Nat := c.toNat - 48

/-- Decimal digits of n, most significant first, with explicit fuel. -/
def pyNatStrAux : Nat → Nat → List Char
  | 0, _ => []
  | fuel + 1, n =>
    if n = 0 then [] else pyNatStrAux fuel (n / 10) ++ [Nat.digitChar (n % 10)]

/-- Embedding of Python str on a natural number. -/
def pyNatStr (n : Nat) : String :=
  if n = 0 then "0" else ⟨pyNatStrAux (n + 1) n⟩

/-- Decimal interpretation of a character list, the left inverse used to show
that distinct windows give distinct column names. -/
def decInterp (l : List Char) : Nat :=
  l.foldl (fun acc c => acc * 10 + digitVal c) 0

/-! ## The merge utility merge_on_datetime

A pandas DataFrame row is modelled as a join key (datetime, symbol) plus its
remaining columns.  pd.merge(base, extra, on = key, how = left) emits, for
every base row in order, one output row per extra row with an equal key, and
a single null-valued output row when no extra row matches. -/

/-- Join key of the panel: one (datetime, symbol) pair. -/
structure MKey where
  datetime : Nat
  symbol : String
deriving DecidableEq

/-- Row of the base OHLCV panel: key plus its non-key columns. -/
structure BaseRow (α : Type) where
  key : MKey
  cols : α
deriving DecidableEq

/-- Row of an indicator DataFrame: key plus the indicator value. -/
structure ExtraRow (β : Type) where
  key : MKey
  value : β
deriving DecidableEq

/-- Row of the merged DataFrame: a null value records a base row with no
matching indicator row. -/
structure MergedRow (α β : Type) where
  key : MKey
  cols : α
  value : Option β
deriving DecidableEq

/-- Output rows contributed by one base row under a left join. -/
def joinRow (extra : List (ExtraRow β)) (b : BaseRow α) : List (MergedRow α β) :=
  match extra.filter (fun e => e.key == b.key) with
  | [] => [⟨b.key, b.cols, none⟩]
  | ms => ms.map fun e => ⟨b.key, b.cols, some e.value⟩

/-- Embedding of pd.merge(base_df, extra_df, on = [datetime, symbol],
how = left). -/
def leftMerge (base : List (BaseRow α)) (extra : List (ExtraRow β)) :
    List (MergedRow α β) :=
  base.flatMap (joinRow extra)

/-- Result of merge_on_datetime: either the base panel returned unchanged
(when the indicator frame is absent) or a merged frame. -/
inductive MergeOutput (α β : Type) where
  | basePanel (rows : List (BaseRow α))
  | merged (rows : List (MergedRow α β))
deriving DecidableEq

/-- Embedding of merge_on_datetime (scripts/twelvedata.py lines 299-306):
if base_df is None or extra_df is None the function returns base_df,
otherwise the left join of the two frames. -/
def merge_on_datetime : Option (List (BaseRow α)) → Option (List (ExtraRow β)) →
    Option (MergeOutput α β)
  | none, _ => none
  | some b, none => some (.basePanel b)
  | some b, some e => some (.merged (leftMerge b e))

/-! ## Indicator fetchers fetch_rsi, fetch_sma, fetch_ema

Each fetcher receives the payload returned by td_get for its endpoint,
checks for a values key, and builds a DataFrame restricted to
datetime, symbol and the value column.  pd.to_numeric(errors = coerce) is the
parseNum parameter; a failed coercion is a null.  The request parameters
(interval, time_period, start_date) only shape the HTTP call and are kept
only where they influence the output. -/

/-- One record of an indicator values array: raw datetime and raw value. -/
structure IndPoint where
  datetime : String
  value : String
deriving DecidableEq

/-- Indicator endpoint payload as the fetchers see it: an optional values
array (none embeds a payload with no values key, e.g. an error payload). -/
structure IndResponse where
  values : Option (List IndPoint)
deriving DecidableEq

/-- Indicator DataFrame: ordered column names and one row per record,
carrying (datetime, symbol, coerced numeric value). -/
structure IndTable where
  cols : List String
  rows : List (String × String × Option ℚ)
deriving DecidableEq

/-- Column name sma_ followed by the window, from fetch_sma line 246. -/
def smaColName (w : Nat) : String := "sma_" ++ pyNatStr w

/-- Column name ema_ followed by the window, from fetch_ema line 271. -/
def emaColName (w : Nat) : String := "ema_" ++ pyNatStr w

/-- Embedding of fetch_rsi (scripts/twelvedata.py lines 173-195): on a payload
with values, rename(columns = (rsi to rsi)) is an identity rename, so the
value column keeps the generic name rsi whatever the requested period is;
the period only enters the request parameters. -/
def fetch_rsi (parseNum : String → Option ℚ) (symbol : String) (_period : Nat)
    (resp : IndResponse) : Option IndTable :=
  match resp.values with
  | none => none
  | some vals =>
    some ⟨["datetime", "symbol", "rsi"],
      vals.map fun p => (p.datetime, symbol, parseNum p.value)⟩

/-- Embedding of fetch_sma (scripts/twelvedata.py lines 226-250): the generic
sma column is renamed to sma_ followed by the window. -/
def fetch_sma (parseNum : String → Option ℚ) (symbol : String) (window : Nat)
    (resp : IndResponse) : Option IndTable :=
  match resp.values with
  | none => none
  | some vals =>
    some ⟨["datetime", "symbol", smaColName window],
      vals.map fun p => (p.datetime, symbol, parseNum p.value)⟩

/-- Embedding of fetch_ema (scripts/twelvedata.py lines 253-275): the generic
ema column is renamed to ema_ followed by the window. -/
def fetch_ema (parseNum : String → Option ℚ) (symbol : String) (window : Nat)
    (resp : IndResponse) : Option IndTable :=
  match resp.values with
  | none => none
  | some vals =>
    some ⟨["datetime", "symbol", emaColName window],
      vals.map fun p => (p.datetime, symbol, parseNum p.value)⟩

/-! ## String comparison and the pandas sort key

pandas sort_values on a list of columns orders rows lexicographically by the
given key; the symbol column compares as a string, i.e. lexicographically by
character code points.  The sort itself is modelled as insertion sort on the
decidable key order (the spec claims only concern sortedness of the output,
never the placement of duplicate keys, which pandas leaves unspecified under
its default unstable quicksort). -/

/-- Lexicographic (code-point) comparison of character lists, the order of
Python string comparison on the symbols the scripts handle. -/
def strLexLe : List Char → List Char → Bool
  | [], _ => true
  | _ :: _, [] => false
  | a :: as, b :: bs =>
    if a.toNat < b.toNat then true
    else if b.toNat < a.toNat then false
    else strLexLe as bs

/-! ## The batch time-series fetcher fetch_time_series -/

/-- One record of a time-series values array, with raw string fields as
decoded from JSON.  A none field embeds an absent column. -/
structure RawBar where
  datetime : String
  open_ : Option String
  high : Option String
  low : Option String
  close : Option String
  volume : Option String
deriving DecidableEq

/-- One row of the OHLCV panel after cast_ohlcv: datetime parsed to a
timestamp, the symbol column attached, numeric columns coerced with nulls for
failures or absent columns. -/
structure Bar where
  datetime : Nat
  symbol : String
  open_ : Option ℚ
  high : Option ℚ
  low : Option ℚ
  close : Option ℚ
  volume : Option ℚ
deriving DecidableEq

/-- Embedding of cast_ohlcv plus the symbol-column assignment for one record:
pd.to_datetime is the parseDt parameter and pd.to_numeric(errors = coerce)
the parseNum parameter. -/
def castBar (parseDt : String → Nat) (parseNum : String → Option ℚ)
    (sym : String) (r : RawBar) : Bar :=
  ⟨parseDt r.datetime, sym,
    r.open_.bind parseNum, r.high.bind parseNum, r.low.bind parseNum,
    r.close.bind parseNum, r.volume.bind parseNum⟩

/-- DataFrame built from one values array for one symbol. -/
def buildFrame (parseDt : String → Nat) (parseNum : String → Option ℚ)
    (sym : String) (vals : List RawBar) : List Bar :=
  vals.map (castBar parseDt parseNum sym)

/-- Entry under one symbol key of a mapping-shaped time-series response:
a falsy block (None or empty), a truthy block without a values key (such as
a per-symbol error payload), or a block with a values array. -/
inductive SymEntry where
  | falsy
  | noValues (d : JsonDict)
  | withValues (values : List RawBar)
deriving DecidableEq

/-- Payload returned by td_get for the time-series endpoint, partitioned the
way fetch_time_series branches on it (lines 123-150): a dictionary with
status error, a dictionary with a top-level values key, any other dictionary
(treated as a mapping from symbol to block), or a non-dictionary. -/
inductive TsData where
  | errorPayload (d : JsonDict)
  | valuesBlock (values : List RawBar)
  | symbolMap (entries : List (String × SymEntry))
  | nonDict
deriving DecidableEq

/-- Key order of sort_values([datetime, symbol]): by timestamp, then by
symbol. -/
def dtSymOrder (a b : Bar) : Prop :=
  a.datetime < b.datetime ∨
    (a.datetime = b.datetime ∧ strLexLe a.symbol.data b.symbol.data = true)

instance : DecidableRel dtSymOrder := fun a b => by
  unfold dtSymOrder; infer_instance

/-- Key order of sort_values([symbol, datetime]) used by main before saving
the indicator panel: by symbol, then by timestamp. -/
def symDtOrder (a b : Bar) : Prop :=
  (strLexLe a.symbol.data b.symbol.data = true ∧ a.symbol ≠ b.symbol) ∨
    (a.symbol = b.symbol ∧ a.datetime ≤ b.datetime)

instance : DecidableRel symDtOrder := fun a b => by
  unfold symDtOrder; infer_instance

/-- Embedding of pandas sort_values([datetime, symbol]). -/
def sort_values_dt_sym (l : List Bar) : List Bar := List.insertionSort dtSymOrder l

/-- Embedding of pandas sort_values([symbol, datetime]), the sort main applies
to the enriched panel before persisting it (line 409). -/
def sort_values_sym_dt (l : List Bar) : List Bar := List.insertionSort symDtOrder l

/-- Iteration over the originally requested symbol list in the mapping case
(lines 137-147): each requested symbol with a missing, falsy or value-less
entry is reported in the skip list; each symbol with values contributes one
frame.  Returns the frames and the skip reports, both in iteration order. -/
def collectFrames (parseDt : String → Nat) (parseNum : String → Option ℚ)
    (entries : List (String × SymEntry)) : List String → List (List Bar) × List String
  | [] => ([], [])
  | sym :: rest =>
    let r := collectFrames parseDt parseNum entries rest
    match entries.lookup sym with
    | some (SymEntry.withValues vals) =>
      (buildFrame parseDt parseNum sym vals :: r.1, r.2)
    | _ => (r.1, sym :: r.2)

/-- Embedding of fetch_time_series (scripts/twelvedata.py lines 95-159) after
the td_get call, returning the panel and the skip reports, or an error for
the RuntimeError on an unexpected response structure.  An error payload
yields an empty frame; a single values block yields one frame whose symbol
column is the comma-joined request parameter; a mapping yields one frame per
requested symbol with values; no frames at all yield an empty panel; a
non-empty frame list is concatenated and sorted by (datetime, symbol). -/
def fetch_time_series (parseDt : String → Nat) (parseNum : String → Option ℚ)
    (symbols : List String) (data : TsData) :
    Except Unit (List Bar × List String) :=
  match data with
  | .errorPayload _ => .ok ([], [])
  | .valuesBlock vals =>
    .ok (sort_values_dt_sym
      (buildFrame parseDt parseNum (String.intercalate "," symbols) vals), [])
  | .symbolMap entries =>
    let r := collectFrames parseDt parseNum entries symbols
    if r.1.isEmpty then .ok ([], r.2)
    else .ok (sort_values_dt_sym r.1.flatten, r.2)
  | .nonDict => .error ()

/-! ## The batch loop of main

The loop over chunked(symbols, batch_size) in main (lines 361-385) is
embedded as a function of the per-batch fetch results.  An empty batch result
is logged and skipped; in the indicator path the non-empty results accumulate
into panels, in the streaming path each non-empty result is appended to the
output file (header written only once); in both paths zero non-empty batches
raise RuntimeError. -/

/-- Accumulation of non-empty batch panels (indicator path, lines 365-369). -/
def gather_panels : List (List Bar) → List (List Bar)
  | [] => []
  | b :: rest => if b.isEmpty then gather_panels rest else b :: gather_panels rest

/-- Indicator path of main up to the base panel: pd.concat(panels) after the
loop, RuntimeError when no batch produced rows (lines 379-382). -/
def main_indicator_base (batchResults : List (List Bar)) : Except String (List Bar) :=
  let panels := gather_panels batchResults
  if panels.isEmpty then Except.error "no time series returned for any symbols."
  else Except.ok panels.flatten

/-- Streaming path of the loop: wrote is the wrote_header flag, written the
chunks appended to the output file so far (lines 370-377). -/
def stream_batches : List (List Bar) → Bool → List (List Bar) → Bool × List (List Bar)
  | [], wrote, written => (wrote, written)
  | b :: rest, wrote, written =>
    if b.isEmpty then stream_batches rest wrote written
    else stream_batches rest true (written ++ [b])

/-- Streaming path of main: the written chunks, or the RuntimeError raised
when wrote_header is still false after the loop (lines 383-385). -/
def main_streaming (batchResults : List (List Bar)) : Except String (List (List Bar)) :=
  let r := stream_batches batchResults false []
  if r.1 then Except.ok r.2
  else Except.error "no time series returned for any symbols."

/-! ## The symbol loader load_symbols_from_csv -/

/-- ASCII whitespace test, the characters Python str.strip removes on the
symbol lists the scripts read. -/
def isSpaceB (c : Char) : Bool := c == ' ' || c == '\t' || c == '\n' || c == '\r'

/-- Embedding of Python str.strip. -/
def pyStrip (s : String) : String :=
  ⟨((s.data.dropWhile isSpaceB).reverse.dropWhile isSpaceB).reverse⟩

/-- First-occurrence de-duplication with an accumulator of already-seen
strings, the iteration order and semantics of dict.fromkeys. -/
def dedupFirstAux (seen : List String) : List String → List String
  | [] => []
  | s :: rest =>
    if s ∈ seen then dedupFirstAux seen rest
    else s :: dedupFirstAux (s :: seen) rest

/-- Embedding of list(dict.fromkeys(symbols)). -/
def pyDedup (l : List String) : List String := dedupFirstAux [] l

/-- Stripped, blank-filtered symbol column, before de-duplication
(line 317). -/
def strippedSymbols (raw : List String) : List String :=
  (raw.filter (fun s => s ≠ "" ∧ pyStrip s ≠ "")).map pyStrip

/-- Embedding of load_symbols_from_csv (scripts/twelvedata.py lines 308-318)
as a function of the symbol column read from the file: strip every entry,
drop entries that are empty or strip to empty, then de-duplicate keeping
first occurrences. -/
def load_symbols_from_csv (raw : List String) : List String :=
  pyDedup (strippedSymbols raw)

/-- Index of the first occurrence of a string in a list (length of the list
when absent), used to state first-seen-order preservation. -/
def firstIdx : List String → String → Nat
  | [], _ => 0
  | x :: xs, a => if x = a then 0 else firstIdx xs a + 1

/-! ## Theorems: the request client -/

/-- C1: a day-scoped 429 rate-limit payload returned by the provider on the
first attempt is returned as the terminal outcome at once, with an empty
sleep log (no minute-level backoff, no further attempts). -/
theorem td_get_day_limit_terminal
    (resp : Nat → HttpResp) (stopFile : Nat → Bool) (sleepPos : Bool)
    (max_retries backoff_base : Nat) (d : JsonDict)
    (hstop : stopFile 0 = false)
    (hbody : (resp 0).body = some (Json.dict d))
    (hstatus : d.status = some "error") (hcode : d.code = some 429)
    (hday : substrB "day" (pyLower (d.message.getD "")) = true)
    (hmin : substrB "minute" (pyLower (d.message.getD "")) = false) :
    td_get resp stopFile sleepPos max_retries backoff_base true
      = (.ret (Json.dict d), []) := by
  unfold td_get td_get_go
  simp [effData, hbody, hstop, is429RateLimit, hstatus, hcode, Json.msgLower, hday, hmin]

/-- Witness for C1 at a concrete day-scoped rate-limit payload. -/
theorem td_get_day_limit_terminal_witness :
    td_get
      (fun _ => ⟨some (Json.dict
        ⟨some "error", some 429, some "You Have Run Out of API Credits for the Day"⟩), false⟩)
      (fun _ => false) true 5 5 true
      = (.ret (Json.dict
        ⟨some "error", some 429, some "You Have Run Out of API Credits for the Day"⟩), []) :=
  td_get_day_limit_terminal _ _ _ _ _ _ rfl rfl rfl rfl (by decide) (by decide)

/-- Helper for C2: when every remaining attempt meets the stop-file check
negatively and receives a minute-scoped 429 payload, the attempt loop sleeps
max(60, backoff_base * (attempt + 1)) seconds at each attempt and, once fuel
is exhausted, returns the payload observed last. -/
theorem td_get_go_minute_all
    (resp : Nat → HttpResp) (stopFile : Nat → Bool) (sleepPos : Bool)
    (backoff_base : Nat) (sdl : Bool) (pay : Nat → JsonDict) :
    ∀ fuel attempt lastData log,
      fuel ≠ 0 →
      (∀ k, attempt ≤ k → k < attempt + fuel → stopFile k = false) →
      (∀ k, attempt ≤ k → k < attempt + fuel → (resp k).body = some (.dict (pay k))) →
      (∀ k, attempt ≤ k → k < attempt + fuel →
        (pay k).status = some "error" ∧ (pay k).code = some 429 ∧
          substrB "minute" (pyLower ((pay k).message.getD "")) = true) →
      td_get_go resp stopFile sleepPos backoff_base sdl attempt fuel lastData log =
        (.ret (.dict (pay (attempt + fuel - 1))),
          log ++ (List.range fuel).map
            (fun i => .minuteBackoff (max 60 (backoff_base * (attempt + i + 1))))) := by
  intro fuel
  induction fuel with
  | zero => intro attempt lastData log h; exact absurd rfl h
  | succ f ih =>
    intro attempt lastData log _ hstop hbody hpay
    have hk0 : attempt ≤ attempt ∧ attempt < attempt + (f + 1) := by omega
    have hp := hpay attempt hk0.1 hk0.2
    have hstep : td_get_go resp stopFile sleepPos backoff_base sdl attempt (f + 1) lastData log
        = td_get_go resp stopFile sleepPos backoff_base sdl (attempt + 1) f
            (.dict (pay attempt))
            (log ++ [.minuteBackoff (max 60 (backoff_base * (attempt + 1)))]) := by
      simp only [td_get_go]
      simp [hstop attempt hk0.1 hk0.2, effData, hbody attempt hk0.1 hk0.2,
        is429RateLimit, hp.1, hp.2.1, Json.msgLower, hp.2.2]
    rw [hstep]
    cases f with
    | zero =>
      simp only [td_get_go]
      simp [List.range_succ_eq_map]
    | succ f2 =>
      rw [ih (attempt + 1) _ _
        (by omega)
        (fun k h1 h2 => hstop k (by omega) (by omega))
        (fun k h1 h2 => hbody k (by omega) (by omega))
        (fun k h1 h2 => hpay k (by omega) (by omega))]
      refine Prod.ext ?_ ?_
      · show TdResult.ret (.dict (pay (attempt + 1 + (f2 + 1) - 1)))
          = TdResult.ret (.dict (pay (attempt + (f2 + 1 + 1) - 1)))
        have : attempt + 1 + (f2 + 1) - 1 = attempt + (f2 + 1 + 1) - 1 := by omega
        rw [this]
      · show (log ++ [SleepEvent.minuteBackoff (max 60 (backoff_base * (attempt + 1)))]) ++
            (List.range (f2 + 1)).map
              (fun i => SleepEvent.minuteBackoff (max 60 (backoff_base * (attempt + 1 + i + 1))))
          = log ++ (List.range (f2 + 1 + 1)).map
              (fun i => SleepEvent.minuteBackoff (max 60 (backoff_base * (attempt + i + 1))))
        rw [List.append_assoc, List.range_succ_eq_map (f2 + 1), List.map_cons, List.map_map]
        refine congrArg (log ++ ·) ?_
        refine congrArg₂ List.cons (by norm_num) ?_
        refine List.map_congr_left (fun i _ => ?_)
        have : attempt + 1 + i + 1 = attempt + Nat.succ i + 1 := by omega
        simp [Function.comp, this]

/-- C2: when every attempt receives a minute-scoped 429 rate-limit payload,
td_get sleeps exactly max(60, backoff_base * (attempt + 1)) seconds before
each retry, makes exactly max_retries + 1 attempts, and on exhaustion of the
retry budget returns the last observed payload instead of looping on. -/
theorem td_get_minute_limit_backoff
    (resp : Nat → HttpResp) (stopFile : Nat → Bool) (sleepPos : Bool)
    (max_retries backoff_base : Nat) (sdl : Bool) (pay : Nat → JsonDict)
    (hstop : ∀ k, k ≤ max_retries → stopFile k = false)
    (hbody : ∀ k, k ≤ max_retries → (resp k).body = some (.dict (pay k)))
    (hpay : ∀ k, k ≤ max_retries →
      (pay k).status = some "error" ∧ (pay k).code = some 429 ∧
        substrB "minute" (pyLower ((pay k).message.getD "")) = true) :
    td_get resp stopFile sleepPos max_retries backoff_base sdl =
      (.ret (.dict (pay max_retries)),
        (List.range (max_retries + 1)).map
          (fun k => .minuteBackoff (max 60 (backoff_base * (k + 1))))) := by
  unfold td_get
  rw [td_get_go_minute_all resp stopFile sleepPos backoff_base sdl pay
    (max_retries + 1) 0 Json.nonDict [] (by omega)
    (fun k h1 h2 => hstop k (by omega))
    (fun k h1 h2 => hbody k (by omega))
    (fun k h1 h2 => hpay k (by omega))]
  simp

/-- Witness for C2 at a concrete minute-scoped rate-limit payload, with the
default retry budget and backoff base: six attempts, six 60-second sleeps,
and the final payload returned. -/
theorem td_get_minute_limit_backoff_witness :
    td_get
      (fun _ => ⟨some (Json.dict
        ⟨some "error", some 429, some "out of API credits for the current minute"⟩), false⟩)
      (fun _ => false) true 5 5 true
      = (.ret (Json.dict
          ⟨some "error", some 429, some "out of API credits for the current minute"⟩),
        (List.range 6).map (fun k => .minuteBackoff (max 60 (5 * (k + 1))))) :=
  td_get_minute_limit_backoff _ _ _ _ _ _
    (fun _ => ⟨some "error", some 429, some "out of API credits for the current minute"⟩)
    (fun _ _ => rfl) (fun _ _ => rfl)
    (fun k _ => ⟨rfl, rfl, by
      show substrB "minute"
        (pyLower ((some "out of API credits for the current minute").getD "")) = true
      decide⟩)

/-- Counterexample to C3 as stated: a 429 error payload whose message
contains the word limit is consumed by the rate-limit branch, so td_get
retries with backoff and finally returns the payload normally instead of
raising, even though the credit-exhaustion classifier matches the message. -/
theorem credit_message_not_fatal_on_429 :
    is_credit_exhausted (Json.dict ⟨some "error", some 429, some "minute limit reached"⟩) = true
    ∧ (td_get
        (fun _ => ⟨some (Json.dict ⟨some "error", some 429, some "minute limit reached"⟩), false⟩)
        (fun _ => false) true 5 5 true).1
      = .ret (Json.dict ⟨some "error", some 429, some "minute limit reached"⟩)
    ∧ (td_get
        (fun _ => ⟨some (Json.dict ⟨some "error", some 429, some "minute limit reached"⟩), false⟩)
        (fun _ => false) true 5 5 true).2.length = 6 := by
  refine ⟨by decide, by decide, by decide⟩

/-- C3 (amended): an error payload that is not consumed by the 429 rate-limit
branch and whose lowercased message contains credit, credits, quota or limit
makes td_get raise the credits-exhausted error immediately, with no retry and
no sleep; and a payload whose status is not error is never classified as
credit exhaustion. -/
theorem td_get_credit_exhausted_fatal
    (resp : Nat → HttpResp) (stopFile : Nat → Bool) (sleepPos : Bool)
    (max_retries backoff_base : Nat) (sdl : Bool) (j : Json)
    (hstop : stopFile 0 = false)
    (hbody : (resp 0).body = some j)
    (h429 : is429RateLimit j = false)
    (hcredit : is_credit_exhausted j = true) :
    td_get resp stopFile sleepPos max_retries backoff_base sdl
        = (.creditsExhaustedError j, [])
    ∧ (∀ j2 : Json, j2.getStatus ≠ some "error" → is_credit_exhausted j2 = false) := by
  constructor
  · unfold td_get td_get_go
    simp [effData, hbody, hstop, h429, hcredit]
  · intro j2 hs
    cases j2 with
    | nonDict => rfl
    | dict d =>
      simp only [Json.getStatus] at hs
      simp [is_credit_exhausted, hs]

/-- Witness for C3 (amended) at a concrete non-429 credit-exhaustion
payload. -/
theorem td_get_credit_exhausted_fatal_witness :
    td_get
      (fun _ => ⟨some (Json.dict ⟨some "error", some 400, some "You have run out of Credits"⟩), false⟩)
      (fun _ => false) true 5 5 true
      = (.creditsExhaustedError
          (Json.dict ⟨some "error", some 400, some "You have run out of Credits"⟩), []) :=
  (td_get_credit_exhausted_fatal _ _ _ _ _ _ _ rfl rfl (by decide) (by decide)).1

/-! ## Theorems: the merge utility -/

/-- Helper: under pairwise-distinct extra keys, at most one extra row matches
a given key. -/
theorem filter_key_len_le_one {β : Type} (extra : List (ExtraRow β))
    (hx : (extra.map (fun e => e.key)).Nodup) (k : MKey) :
    (extra.filter (fun e => e.key == k)).length ≤ 1 := by
  induction extra with
  | nil => simp
  | cons e es ih =>
    simp only [List.map_cons, List.nodup_cons] at hx
    by_cases he : e.key = k
    · have hnone : es.filter (fun e2 => e2.key == k) = [] := by
        refine List.filter_eq_nil_iff.mpr (fun e2 he2 => ?_)
        simp only [beq_iff_eq]
        intro hk2
        exact hx.1 (by
          rw [← he] at hk2
          exact (List.mem_map).mpr ⟨e2, he2, hk2.symm ▸ rfl⟩)
      simp [List.filter_cons, he, hnone]
    · simpa [List.filter_cons, he] using ih hx.2

/-- Helper: under pairwise-distinct extra keys, one base row contributes
exactly one output row, and that row carries the base key. -/
theorem joinRow_map_key {α β : Type} (extra : List (ExtraRow β))
    (hx : (extra.map (fun e => e.key)).Nodup) (b : BaseRow α) :
    (joinRow extra b).map (fun r => r.key) = [b.key] := by
  have hlen := filter_key_len_le_one extra hx b.key
  rcases hfil : extra.filter (fun e => e.key == b.key) with _ | ⟨e, ms⟩
  · simp [joinRow, hfil]
  · rw [hfil] at hlen
    simp only [List.length_cons] at hlen
    have hms : ms = [] := List.length_eq_zero.mp (by omega)
    subst hms
    simp [joinRow, hfil]

/-- Helper: under pairwise-distinct extra keys, the left join carries the base
key column over unchanged. -/
theorem leftMerge_map_key {α β : Type} (base : List (BaseRow α))
    (extra : List (ExtraRow β)) (hx : (extra.map (fun e => e.key)).Nodup) :
    (leftMerge base extra).map (fun r => r.key) = base.map (fun b => b.key) := by
  induction base with
  | nil => rfl
  | cons b bs ih =>
    simp only [leftMerge, List.flatMap_cons, List.map_append] at ih ⊢
    rw [joinRow_map_key extra hx b, ih]
    rfl

/-- C4: merging an indicator frame with pairwise-distinct (timestamp, symbol)
keys onto a base panel by a left join on (timestamp, symbol) keeps the row
count of the base panel, introduces no duplicate keys when the base panel has
none, and fills base rows without a matching indicator row with nulls. -/
theorem merge_left_join_preserves_panel {α β : Type}
    (base : List (BaseRow α)) (extra : List (ExtraRow β))
    (hx : (extra.map (fun e => e.key)).Nodup) :
    merge_on_datetime (some base) (some extra) = some (.merged (leftMerge base extra))
    ∧ (leftMerge base extra).length = base.length
    ∧ ((base.map (fun b => b.key)).Nodup →
        ((leftMerge base extra).map (fun r => r.key)).Nodup)
    ∧ (∀ r ∈ leftMerge base extra, (∀ e ∈ extra, e.key ≠ r.key) → r.value = none) := by
  refine ⟨rfl, ?_, ?_, ?_⟩
  · have := congrArg List.length (leftMerge_map_key base extra hx)
    simpa using this
  · intro hb
    rw [leftMerge_map_key base extra hx]
    exact hb
  · intro r hr hnone
    obtain ⟨b, _, hrb⟩ := List.mem_flatMap.mp hr
    unfold joinRow at hrb
    rcases hfil : extra.filter (fun e => e.key == b.key) with _ | ⟨e, ms⟩
    · rw [hfil] at hrb
      simp only [List.mem_singleton] at hrb
      rw [hrb]
    · rw [hfil] at hrb
      obtain ⟨e2, he2, hre⟩ := List.mem_map.mp hrb
      have he2f : e2 ∈ extra.filter (fun e => e.key == b.key) := hfil ▸ he2
      obtain ⟨he2x, he2k⟩ := List.mem_filter.mp he2f
      exfalso
      refine hnone e2 he2x ?_
      rw [← hre]
      exact beq_iff_eq.mp he2k

/-- Witness for C4 on a concrete two-row panel and one-row indicator frame:
the join keeps both rows and duplicates no key. -/
theorem merge_left_join_preserves_panel_witness :
    (leftMerge [⟨⟨1, "A"⟩, (0 : Nat)⟩, ⟨⟨1, "B"⟩, 1⟩]
        [(⟨⟨1, "A"⟩, (5 : Nat)⟩ : ExtraRow Nat)]).length = 2
    ∧ ((leftMerge [⟨⟨1, "A"⟩, (0 : Nat)⟩, ⟨⟨1, "B"⟩, 1⟩]
        [(⟨⟨1, "A"⟩, (5 : Nat)⟩ : ExtraRow Nat)]).map (fun r => r.key)).Nodup :=
  ⟨(merge_left_join_preserves_panel _ _ (by decide)).2.1,
    (merge_left_join_preserves_panel _ _ (by decide)).2.2.1 (by decide)⟩

/-- C10: merging when the indicator frame is absent returns the base panel
unchanged with no indicator column attached, and merging when the base is
absent returns the absent base. -/
theorem merge_on_datetime_none_cases {α β : Type}
    (b : List (BaseRow α)) (e : Option (List (ExtraRow β))) :
    (merge_on_datetime none e : Option (MergeOutput α β)) = none
    ∧ (merge_on_datetime (some b) none : Option (MergeOutput α β))
        = some (.basePanel b) := by
  cases e <;> exact ⟨rfl, rfl⟩

/-! ## Theorems: indicator column naming -/

/-- Helper: digitChar is left-inverted by digitVal on decimal digits. -/
theorem digitVal_digitChar (d : Nat) (h : d < 10) :
    digitVal (Nat.digitChar d) = d := by
  interval_cases d <;> decide

/-- Helper: decimal interpretation of a trailing digit. -/
theorem decInterp_snoc (l : List Char) (c : Char) :
    decInterp (l ++ [c]) = decInterp l * 10 + digitVal c := by
  simp [decInterp, List.foldl_append]

/-- Helper: the fueled decimal rendering is interpreted back to its input
when the fuel covers it. -/
theorem decInterp_pyNatStrAux :
    ∀ fuel n, n ≤ fuel → decInterp (pyNatStrAux fuel n) = n := by
  intro fuel
  induction fuel with
  | zero =>
    intro n h
    interval_cases n
    simp [pyNatStrAux, decInterp]
  | succ f ih =>
    intro n h
    by_cases h0 : n = 0
    · subst h0
      simp [pyNatStrAux, decInterp]
    · rw [pyNatStrAux, if_neg h0, decInterp_snoc,
        ih (n / 10) (by
          have := Nat.div_lt_self (Nat.pos_of_ne_zero h0) (by norm_num : (1 : Nat) < 10)
          omega),
        digitVal_digitChar _ (Nat.mod_lt n (by norm_num))]
      have := Nat.div_add_mod n 10
      omega

/-- Helper: the decimal rendering of a natural number interprets back to the
number, hence distinct windows render to distinct strings. -/
theorem decInterp_pyNatStr (n : Nat) : decInterp (pyNatStr n).data = n := by
  by_cases h : n = 0
  · subst h; decide
  · rw [pyNatStr, if_neg h]
    exact decInterp_pyNatStrAux (n + 1) n (by omega)

/-- Helper: the window is recoverable from the sma column name, dropping the
four-character sma_ head. -/
theorem smaColName_recover (w : Nat) :
    decInterp ((smaColName w).data.drop 4) = w := by
  have hd : (smaColName w).data = ("sma_" : String).data ++ (pyNatStr w).data :=
    String.data_append _ _
  rw [hd]
  rw [show (4 : Nat) = ("sma_" : String).data.length from rfl, List.drop_left]
  exact decInterp_pyNatStr w

/-- Helper: the window is recoverable from the ema column name. -/
theorem emaColName_recover (w : Nat) :
    decInterp ((emaColName w).data.drop 4) = w := by
  have hd : (emaColName w).data = ("ema_" : String).data ++ (pyNatStr w).data :=
    String.data_append _ _
  rw [hd]
  rw [show (4 : Nat) = ("ema_" : String).data.length from rfl, List.drop_left]
  exact decInterp_pyNatStr w

/-- Counterexample to C5 as stated: the RSI fetch performs an identity rename,
so the value column of its output is the generic name rsi for every period;
two RSI fetches with different periods produce identical column names (period
14 is not embedded in the name). -/
theorem fetch_rsi_generic_column :
    fetch_rsi (fun _ => none) "AAPL" 14 ⟨some [⟨"2023-01-02", "55.1"⟩]⟩
      = fetch_rsi (fun _ => none) "AAPL" 7 ⟨some [⟨"2023-01-02", "55.1"⟩]⟩
    ∧ fetch_rsi (fun _ => none) "AAPL" 14 ⟨some [⟨"2023-01-02", "55.1"⟩]⟩
      = some ⟨["datetime", "symbol", "rsi"], [("2023-01-02", "AAPL", none)]⟩
    ∧ substrB (pyNatStr 14) "rsi" = false :=
  ⟨rfl, rfl, by decide⟩

/-- C5 (amended): the SMA and EMA fetchers rename the generic value column to
a name embedding the window (sma_ or ema_ followed by the window), and
distinct windows give distinct column names, so SMA and EMA series with
different windows coexist without collision; the RSI fetcher keeps the
generic column name rsi regardless of the requested period. -/
theorem indicator_column_renaming
    (parseNum : String → Option ℚ) (symbol : String) (w w' period : Nat)
    (vals : List IndPoint) :
    fetch_sma parseNum symbol w ⟨some vals⟩
      = some ⟨["datetime", "symbol", smaColName w],
          vals.map fun p => (p.datetime, symbol, parseNum p.value)⟩
    ∧ fetch_ema parseNum symbol w ⟨some vals⟩
      = some ⟨["datetime", "symbol", emaColName w],
          vals.map fun p => (p.datetime, symbol, parseNum p.value)⟩
    ∧ (smaColName w = smaColName w' → w = w')
    ∧ (emaColName w = emaColName w' → w = w')
    ∧ fetch_rsi parseNum symbol period ⟨some vals⟩
      = some ⟨["datetime", "symbol", "rsi"],
          vals.map fun p => (p.datetime, symbol, parseNum p.value)⟩ := by
  refine ⟨rfl, rfl, ?_, ?_, rfl⟩
  · intro h
    have := congrArg (fun s => decInterp (s.data.drop 4)) h
    simpa [smaColName_recover] using this
  · intro h
    have := congrArg (fun s => decInterp (s.data.drop 4)) h
    simpa [emaColName_recover] using this

/-- Witness for C5 (amended) at window 20 and a concrete one-point payload. -/
theorem indicator_column_renaming_witness :
    fetch_sma (fun _ => some 1) "NVDA" 20 ⟨some [⟨"2023-01-02", "10"⟩]⟩
      = some ⟨["datetime", "symbol", smaColName 20], [("2023-01-02", "NVDA", some 1)]⟩
    ∧ (20 : Nat) = 20 :=
  ⟨(indicator_column_renaming (fun _ => some 1) "NVDA" 20 20 14
      [⟨"2023-01-02", "10"⟩]).1,
    (indicator_column_renaming (fun _ => some 1) "NVDA" 20 20 14
      [⟨"2023-01-02", "10"⟩]).2.2.1 rfl⟩

/-! ## Theorems: sort order of the panel -/

/-- Helper: code-point comparison is reflexive. -/
theorem strLexLe_refl : ∀ l : List Char, strLexLe l l = true := by
  intro l
  induction l with
  | nil => rfl
  | cons x xs ih => simp [strLexLe, Nat.lt_irrefl, ih]

/-- Helper: code-point comparison is total. -/
theorem strLexLe_total : ∀ a b : List Char, strLexLe a b = true ∨ strLexLe b a = true := by
  intro a
  induction a with
  | nil => intro b; left; rfl
  | cons x xs ih =>
    intro b
    cases b with
    | nil => right; rfl
    | cons y ys =>
      rcases Nat.lt_trichotomy x.toNat y.toNat with h | h | h
      · left; simp [strLexLe, h]
      · rcases ih ys with h2 | h2
        · left; simp [strLexLe, h, Nat.lt_irrefl, h2]
        · right; simp [strLexLe, h, Nat.lt_irrefl, h2]
      · right; simp [strLexLe, h]

/-- Helper: code-point comparison is transitive. -/
theorem strLexLe_trans :
    ∀ a b c : List Char, strLexLe a b = true → strLexLe b c = true →
      strLexLe a c = true := by
  intro a
  induction a with
  | nil => intro b c _ _; rfl
  | cons x xs ih =>
    intro b c hab hbc
    cases b with
    | nil => simp [strLexLe] at hab
    | cons y ys =>
      cases c with
      | nil => simp [strLexLe] at hbc
      | cons z zs =>
        simp only [strLexLe] at hab hbc ⊢
        rcases Nat.lt_trichotomy x.toNat y.toNat with h1 | h1 | h1 <;>
          rcases Nat.lt_trichotomy y.toNat z.toNat with h2 | h2 | h2
        · simp [show x.toNat < z.toNat by omega]
        · simp [show x.toNat < z.toNat by omega]
        · simp [show ¬ y.toNat < z.toNat by omega, h2] at hbc
        · simp [show x.toNat < z.toNat by omega]
        · simp only [show ¬ x.toNat < y.toNat by omega,
            show ¬ y.toNat < x.toNat by omega, if_false, ite_false] at hab
          simp only [show ¬ y.toNat < z.toNat by omega,
            show ¬ z.toNat < y.toNat by omega, if_false, ite_false] at hbc
          simp only [show ¬ x.toNat < z.toNat by omega,
            show ¬ z.toNat < x.toNat by omega, if_false, ite_false]
          exact ih ys zs hab hbc
        · simp [show ¬ y.toNat < z.toNat by omega, h2] at hbc
        · simp [show ¬ x.toNat < y.toNat by omega, h1] at hab
        · simp [show ¬ x.toNat < y.toNat by omega, h1] at hab
        · simp [show ¬ x.toNat < y.toNat by omega, h1] at hab

/-- Helper: characters with equal code points are equal. -/
theorem char_eq_of_toNat_eq {x y : Char} (h : x.toNat = y.toNat) : x = y := by
  apply Char.ext
  exact UInt32.toNat.inj h

/-- Helper: code-point comparison is antisymmetric. -/
theorem strLexLe_antisymm :
    ∀ a b : List Char, strLexLe a b = true → strLexLe b a = true → a = b := by
  intro a
  induction a with
  | nil =>
    intro b _ hba
    cases b with
    | nil => rfl
    | cons y ys => simp [strLexLe] at hba
  | cons x xs ih =>
    intro b hab hba
    cases b with
    | nil => simp [strLexLe] at hab
    | cons y ys =>
      simp only [strLexLe] at hab hba
      rcases Nat.lt_trichotomy x.toNat y.toNat with h1 | h1 | h1
      · simp [show ¬ y.toNat < x.toNat by omega, h1] at hba
      · simp only [show ¬ x.toNat < y.toNat by omega,
          show ¬ y.toNat < x.toNat by omega, if_false, ite_false] at hab hba
        rw [char_eq_of_toNat_eq h1, ih ys hab hba]
      · simp [show ¬ x.toNat < y.toNat by omega, h1] at hab

/-- Helper: strings with equal character lists are equal. -/
theorem str_eq_of_data_eq {s t : String} (h : s.data = t.data) : s = t := by
  cases s
  cases t
  exact congrArg String.mk h

instance : IsTotal Bar dtSymOrder where
  total a b := by
    rcases Nat.lt_trichotomy a.datetime b.datetime with h | h | h
    · exact Or.inl (Or.inl h)
    · rcases strLexLe_total a.symbol.data b.symbol.data with h2 | h2
      · exact Or.inl (Or.inr ⟨h, h2⟩)
      · exact Or.inr (Or.inr ⟨h.symm, h2⟩)
    · exact Or.inr (Or.inl h)

instance : IsTrans Bar dtSymOrder where
  trans a b c hab hbc := by
    rcases hab with h1 | ⟨h1, h1s⟩ <;> rcases hbc with h2 | ⟨h2, h2s⟩
    · exact Or.inl (by omega)
    · exact Or.inl (by omega)
    · exact Or.inl (by omega)
    · exact Or.inr ⟨by omega, strLexLe_trans _ _ _ h1s h2s⟩

instance : IsTotal Bar symDtOrder where
  total a b := by
    by_cases hs : a.symbol = b.symbol
    · rcases Nat.le_total a.datetime b.datetime with h | h
      · exact Or.inl (Or.inr ⟨hs, h⟩)
      · exact Or.inr (Or.inr ⟨hs.symm, h⟩)
    · rcases strLexLe_total a.symbol.data b.symbol.data with h2 | h2
      · exact Or.inl (Or.inl ⟨h2, hs⟩)
      · exact Or.inr (Or.inl ⟨h2, fun he => hs he.symm⟩)

instance : IsTrans Bar symDtOrder where
  trans a b c hab hbc := by
    rcases hab with ⟨h1, h1n⟩ | ⟨h1, h1d⟩ <;> rcases hbc with ⟨h2, h2n⟩ | ⟨h2, h2d⟩
    · refine Or.inl ⟨strLexLe_trans _ _ _ h1 h2, fun hac => ?_⟩
      refine h1n (str_eq_of_data_eq (strLexLe_antisymm _ _ h1 ?_))
      rw [← hac] at h2
      exact h2
    · refine Or.inl ⟨?_, ?_⟩
      · rw [← h2]
        exact h1
      · rw [← h2]
        exact h1n
    · refine Or.inl ⟨?_, ?_⟩
      · rw [h1]
        exact h2
      · rw [h1]
        exact h2n
    · exact Or.inr ⟨h1.trans h2, h1d.trans h2d⟩

/-- Counterexample to C6 as stated: the re-sort main applies before saving the
enriched panel orders by (symbol, timestamp), not (timestamp, symbol): on a
two-row panel it places symbol A with timestamp 2 before symbol B with
timestamp 1, an output that is not sorted by (timestamp, symbol). -/
theorem main_sort_not_by_datetime_symbol :
    sort_values_sym_dt
        [⟨2, "A", none, none, none, none, none⟩, ⟨1, "B", none, none, none, none, none⟩]
      = [⟨2, "A", none, none, none, none, none⟩, ⟨1, "B", none, none, none, none, none⟩]
    ∧ ¬ List.Sorted dtSymOrder
        (sort_values_sym_dt
          [⟨2, "A", none, none, none, none, none⟩,
            ⟨1, "B", none, none, none, none, none⟩]) := by
  exact ⟨by decide, by decide⟩

/-- C6 (amended): every successful batch fetch returns a panel sorted by
(timestamp, symbol); the re-sort main applies to the enriched panel before
persistence orders it by (symbol, timestamp). -/
theorem panel_sorting
    (parseDt : String → Nat) (parseNum : String → Option ℚ) (symbols : List String)
    (data : TsData) (panel : List Bar) :
    (∀ p skipped, fetch_time_series parseDt parseNum symbols data = .ok (p, skipped) →
      List.Sorted dtSymOrder p)
    ∧ List.Sorted symDtOrder (sort_values_sym_dt panel) := by
  constructor
  · intro p skipped h
    cases data with
    | errorPayload d =>
      simp only [fetch_time_series, Except.ok.injEq, Prod.mk.injEq] at h
      rw [← h.1]
      exact List.sorted_nil
    | valuesBlock vals =>
      simp only [fetch_time_series, Except.ok.injEq, Prod.mk.injEq] at h
      rw [← h.1]
      exact List.sorted_insertionSort _ _
    | symbolMap entries =>
      simp only [fetch_time_series] at h
      split at h <;> simp only [Except.ok.injEq, Prod.mk.injEq] at h
      · rw [← h.1]
        exact List.sorted_nil
      · rw [← h.1]
        exact List.sorted_insertionSort _ _
    | nonDict => simp only [fetch_time_series] at h; cases h
  · exact List.sorted_insertionSort _ _

/-- Witness for C6 (amended) on a concrete single-block fetch result. -/
theorem panel_sorting_witness :
    List.Sorted dtSymOrder
      (sort_values_dt_sym
        (buildFrame String.length (fun _ => none) (String.intercalate "," ["NVDA"])
          [⟨"2023-01-02", none, none, none, none, none⟩])) :=
  (panel_sorting String.length (fun _ => none) ["NVDA"]
    (.valuesBlock [⟨"2023-01-02", none, none, none, none, none⟩]) []).1 _ [] rfl

/-! ## Theorems: the batch time-series fetcher -/

/-- Helper: every requested symbol whose entry in the mapping response is
missing, falsy or value-less ends up in the skip report. -/
theorem mem_skipped_of_no_values (parseDt : String → Nat)
    (parseNum : String → Option ℚ) (entries : List (String × SymEntry)) :
    ∀ (symbols : List String) (sym : String), sym ∈ symbols →
      (∀ vals, entries.lookup sym ≠ some (SymEntry.withValues vals)) →
      sym ∈ (collectFrames parseDt parseNum entries symbols).2 := by
  intro symbols
  induction symbols with
  | nil => intro sym h; cases h
  | cons s rest ih =>
    intro sym hmem hnv
    rcases List.mem_cons.mp hmem with hs | hmem2
    · subst hs
      simp only [collectFrames]
      rcases hl : entries.lookup sym with _ | entry
      · exact List.mem_cons_self _ _
      · cases entry with
        | falsy => exact List.mem_cons_self _ _
        | noValues d => exact List.mem_cons_self _ _
        | withValues vals => exact absurd hl (hnv vals)
    · simp only [collectFrames]
      rcases hl : entries.lookup s with _ | entry
      · exact List.mem_cons_of_mem _ (ih sym hmem2 hnv)
      · cases entry with
        | falsy => exact List.mem_cons_of_mem _ (ih sym hmem2 hnv)
        | noValues d => exact List.mem_cons_of_mem _ (ih sym hmem2 hnv)
        | withValues vals => exact ih sym hmem2 hnv

/-- Helper: every row of every collected frame carries a requested symbol. -/
theorem frames_symbols (parseDt : String → Nat) (parseNum : String → Option ℚ)
    (entries : List (String × SymEntry)) :
    ∀ (symbols : List String) frame,
      frame ∈ (collectFrames parseDt parseNum entries symbols).1 →
      ∀ b ∈ frame, b.symbol ∈ symbols := by
  intro symbols
  induction symbols with
  | nil => intro frame h; cases h
  | cons s rest ih =>
    intro frame hf b hb
    simp only [collectFrames] at hf
    rcases hl : entries.lookup s with _ | entry
    · rw [hl] at hf
      exact List.mem_cons_of_mem _ (ih frame hf b hb)
    · cases entry with
      | falsy =>
        rw [hl] at hf
        exact List.mem_cons_of_mem _ (ih frame hf b hb)
      | noValues d =>
        rw [hl] at hf
        exact List.mem_cons_of_mem _ (ih frame hf b hb)
      | withValues vals =>
        rw [hl] at hf
        have hf2 : frame = buildFrame parseDt parseNum s vals
            ∨ frame ∈ (collectFrames parseDt parseNum entries rest).1 :=
          List.mem_cons.mp hf
        rcases hf2 with hf2 | hf2
        · subst hf2
          obtain ⟨r, _, hrb⟩ := List.mem_map.mp hb
          rw [← hrb]
          exact List.mem_cons_self _ _
        · exact List.mem_cons_of_mem _ (ih frame hf2 b hb)

/-- C7: on a mapping-shaped response, the fetcher iterates the requested
symbol list: every requested symbol whose entry is missing or carries no
values is reported in the skip list, and every row of the returned panel
carries a requested symbol, so extra response keys contribute no rows. -/
theorem fetch_mapping_iterates_requested (parseDt : String → Nat)
    (parseNum : String → Option ℚ) (symbols : List String)
    (entries : List (String × SymEntry)) :
    (∀ sym ∈ symbols,
        (∀ vals, entries.lookup sym ≠ some (SymEntry.withValues vals)) →
        sym ∈ (collectFrames parseDt parseNum entries symbols).2)
    ∧ (∀ panel skipped,
        fetch_time_series parseDt parseNum symbols (.symbolMap entries)
          = .ok (panel, skipped) →
        ∀ b ∈ panel, b.symbol ∈ symbols) := by
  constructor
  · intro sym h1 h2
    exact mem_skipped_of_no_values parseDt parseNum entries symbols sym h1 h2
  · intro panel skipped h b hb
    simp only [fetch_time_series] at h
    split at h <;> simp only [Except.ok.injEq, Prod.mk.injEq] at h
    · rw [← h.1] at hb
      cases hb
    · rw [← h.1] at hb
      have hperm := List.perm_insertionSort dtSymOrder
        ((collectFrames parseDt parseNum entries symbols).1.flatten)
      have hb2 := hperm.mem_iff.mp hb
      obtain ⟨frame, hfr, hbf⟩ := List.mem_flatten.mp hb2
      exact frames_symbols parseDt parseNum entries symbols frame hfr b hbf

/-- Witness for C7: symbol BBB is requested but missing from the response
mapping, and lands in the skip report. -/
theorem fetch_mapping_iterates_requested_witness :
    "BBB" ∈ (collectFrames String.length (fun _ => none)
      [("AAA", SymEntry.falsy), ("ZZZ", SymEntry.falsy)] ["AAA", "BBB"]).2 :=
  (fetch_mapping_iterates_requested String.length (fun _ => none) ["AAA", "BBB"]
    [("AAA", SymEntry.falsy), ("ZZZ", SymEntry.falsy)]).1 "BBB" (by decide)
    (fun vals h => by
      rw [show List.lookup "BBB" [("AAA", SymEntry.falsy), ("ZZZ", SymEntry.falsy)]
        = (none : Option SymEntry) from rfl] at h
      cases h)

/-! ## Theorems: the batch loop of main -/

/-- Helper: the accumulated panel list is empty exactly when every batch
produced no rows. -/
theorem gather_panels_eq_nil_iff :
    ∀ brs : List (List Bar), gather_panels brs = [] ↔ ∀ b ∈ brs, b = [] := by
  intro brs
  induction brs with
  | nil => simp [gather_panels]
  | cons b rest ih =>
    by_cases hb : b.isEmpty
    · have hb2 : b = [] := by simpa using hb
      subst hb2
      simpa [gather_panels] using ih
    · have hb2 : b ≠ [] := by simpa using hb
      simp only [gather_panels, hb]
      constructor
      · intro h
        cases h
      · intro hall
        exact absurd (hall b (List.mem_cons_self _ _)) hb2

/-- Helper: the wrote-header flag after the streaming loop. -/
theorem stream_batches_fst :
    ∀ (brs : List (List Bar)) w ws,
      (stream_batches brs w ws).1 = (w || brs.any (fun b => !b.isEmpty)) := by
  intro brs
  induction brs with
  | nil => intro w ws; simp [stream_batches]
  | cons b rest ih =>
    intro w ws
    by_cases hb : b.isEmpty
    · simp [stream_batches, hb, ih]
    · simp [stream_batches, hb, ih]

/-- C8: a batch that returns no rows is skipped and the loop continues with
the remaining batches in both the indicator and the streaming path, and the
run raises the no-data RuntimeError exactly when every batch of the run
returned no rows. -/
theorem batch_loop_empty_nonfatal (rest brs : List (List Bar)) :
    main_indicator_base (([] : List Bar) :: rest) = main_indicator_base rest
    ∧ main_streaming (([] : List Bar) :: rest) = main_streaming rest
    ∧ (main_indicator_base brs = Except.error "no time series returned for any symbols."
        ↔ ∀ b ∈ brs, b = [])
    ∧ (main_streaming brs = Except.error "no time series returned for any symbols."
        ↔ ∀ b ∈ brs, b = []) := by
  refine ⟨rfl, rfl, ?_, ?_⟩
  · constructor
    · intro h
      rw [← gather_panels_eq_nil_iff]
      by_cases hg : (gather_panels brs).isEmpty
      · simpa using hg
      · simp only [main_indicator_base, hg] at h
        cases h
    · intro hall
      have hg : (gather_panels brs).isEmpty = true := by
        simp [gather_panels_eq_nil_iff brs |>.mpr hall]
      simp [main_indicator_base, hg]
  · constructor
    · intro h
      simp only [main_streaming, stream_batches_fst] at h
      by_cases ha : brs.any (fun b => !b.isEmpty)
      · simp [ha] at h
      · intro b hb
        have h2 : ∀ x ∈ brs, x = [] := by simpa using ha
        exact h2 b hb
    · intro hall
      have ha : brs.any (fun b => !b.isEmpty) = false := by
        refine List.any_eq_false.mpr (fun b hb => ?_)
        simp [hall b hb]
      simp [main_streaming, stream_batches_fst, ha]

/-- Witness for C8: a run whose two batches are both empty raises the no-data
error, and an empty first batch does not change the outcome of the rest of
the run. -/
theorem batch_loop_empty_nonfatal_witness :
    main_indicator_base [[], []]
        = Except.error "no time series returned for any symbols."
    ∧ main_indicator_base
        ([] :: [[⟨1, "A", none, none, none, none, none⟩]])
      = main_indicator_base [[⟨1, "A", none, none, none, none, none⟩]] :=
  ⟨(batch_loop_empty_nonfatal [] [[], []]).2.2.1.mpr (by decide),
    (batch_loop_empty_nonfatal [[⟨1, "A", none, none, none, none, none⟩]] []).1⟩

/-! ## Theorems: the symbol loader -/

/-- Helper: membership in the first-occurrence de-duplication. -/
theorem mem_dedupFirstAux :
    ∀ (l seen : List String) (a : String),
      a ∈ dedupFirstAux seen l ↔ (a ∈ l ∧ a ∉ seen) := by
  intro l
  induction l with
  | nil => intro seen a; simp [dedupFirstAux]
  | cons s rest ih =>
    intro seen a
    by_cases hs : s ∈ seen
    · rw [dedupFirstAux, if_pos hs, ih]
      simp only [List.mem_cons]
      constructor
      · rintro ⟨h1, h2⟩
        exact ⟨Or.inr h1, h2⟩
      · rintro ⟨h1 | h1, h2⟩
        · subst h1; exact absurd hs h2
        · exact ⟨h1, h2⟩
    · rw [dedupFirstAux, if_neg hs]
      simp only [List.mem_cons]
      constructor
      · rintro (rfl | h1)
        · exact ⟨Or.inl rfl, hs⟩
        · have h2 := (ih (s :: seen) a).mp h1
          exact ⟨Or.inr h2.1, fun hseen => h2.2 (List.mem_cons_of_mem _ hseen)⟩
      · rintro ⟨rfl | h1, h2⟩
        · exact Or.inl rfl
        · by_cases has : a = s
          · exact Or.inl has
          · refine Or.inr ((ih (s :: seen) a).mpr ⟨h1, ?_⟩)
            simp [List.mem_cons, has, h2]

/-- Helper: the first-occurrence de-duplication has no duplicates. -/
theorem nodup_dedupFirstAux :
    ∀ (l seen : List String), (dedupFirstAux seen l).Nodup := by
  intro l
  induction l with
  | nil => intro seen; exact List.nodup_nil
  | cons s rest ih =>
    intro seen
    by_cases hs : s ∈ seen
    · rw [dedupFirstAux, if_pos hs]
      exact ih seen
    · rw [dedupFirstAux, if_neg hs]
      refine List.nodup_cons.mpr ⟨?_, ih (s :: seen)⟩
      intro hmem
      exact ((mem_dedupFirstAux rest (s :: seen) s).mp hmem).2 (List.mem_cons_self _ _)

/-- Helper: the first-occurrence de-duplication lists elements in the order
of their first occurrence in the input. -/
theorem pairwise_firstIdx_dedupFirstAux :
    ∀ (l seen : List String),
      (dedupFirstAux seen l).Pairwise (fun a b => firstIdx l a < firstIdx l b) := by
  intro l
  induction l with
  | nil => intro seen; exact List.Pairwise.nil
  | cons s rest ih =>
    intro seen
    by_cases hs : s ∈ seen
    · rw [dedupFirstAux, if_pos hs]
      refine (ih seen).imp_of_mem ?_
      intro a b ha hb hR
      have ha2 := (mem_dedupFirstAux rest seen a).mp ha
      have hb2 := (mem_dedupFirstAux rest seen b).mp hb
      have has : ¬ (s = a) := fun h => ha2.2 (h ▸ hs)
      have hbs : ¬ (s = b) := fun h => hb2.2 (h ▸ hs)
      simpa [firstIdx, has, hbs] using hR
    · rw [dedupFirstAux, if_neg hs]
      refine List.pairwise_cons.mpr ⟨?_, ?_⟩
      · intro b hb
        have hb2 := (mem_dedupFirstAux rest (s :: seen) b).mp hb
        have hbs : ¬ (s = b) := fun h => hb2.2 (h ▸ List.mem_cons_self s seen)
        simp [firstIdx, hbs]
      · refine (ih (s :: seen)).imp_of_mem ?_
        intro a b ha hb hR
        have ha2 := (mem_dedupFirstAux rest (s :: seen) a).mp ha
        have hb2 := (mem_dedupFirstAux rest (s :: seen) b).mp hb
        have has : ¬ (s = a) := fun h => ha2.2 (h ▸ List.mem_cons_self s seen)
        have hbs : ¬ (s = b) := fun h => hb2.2 (h ▸ List.mem_cons_self s seen)
        simpa [firstIdx, has, hbs] using hR

/-- Helper: when dropWhile leaves something, the remainder holds a character
failing the predicate. -/
theorem dropWhile_any_not (p : Char → Bool) :
    ∀ l : List Char, l.dropWhile p ≠ [] →
      (l.dropWhile p).any (fun c => !p c) = true := by
  intro l
  induction l with
  | nil => intro h; exact absurd rfl h
  | cons c cs ih =>
    intro h
    rw [List.dropWhile_cons] at h ⊢
    by_cases hc : p c
    · rw [if_pos hc] at h ⊢
      exact ih h
    · rw [if_neg hc]
      simp [hc]

/-- Helper: a non-empty stripped string holds a non-whitespace character. -/
theorem pyStrip_any_not_space (t : String) (h : pyStrip t ≠ "") :
    (pyStrip t).data.any (fun c => !(isSpaceB c)) = true := by
  have hdata : (pyStrip t).data
      = ((t.data.dropWhile isSpaceB).reverse.dropWhile isSpaceB).reverse := rfl
  have hne : ((t.data.dropWhile isSpaceB).reverse.dropWhile isSpaceB) ≠ [] := by
    intro h0
    apply h
    apply str_eq_of_data_eq
    rw [hdata, h0]
    rfl
  rw [hdata, List.any_reverse]
  exact dropWhile_any_not isSpaceB _ hne

/-- C9: the loaded symbol list holds no blank entries (every entry has a
non-whitespace character), holds no duplicates, and lists the remaining
symbols in the order of their first occurrence in the stripped input
column. -/
theorem load_symbols_clean (raw : List String) :
    (load_symbols_from_csv raw).Nodup
    ∧ (∀ s ∈ load_symbols_from_csv raw,
        s.data.any (fun c => !(isSpaceB c)) = true)
    ∧ (load_symbols_from_csv raw).Pairwise
        (fun a b => firstIdx (strippedSymbols raw) a
          < firstIdx (strippedSymbols raw) b) := by
  refine ⟨nodup_dedupFirstAux _ _, ?_, pairwise_firstIdx_dedupFirstAux _ _⟩
  intro s hs
  have hmem := ((mem_dedupFirstAux (strippedSymbols raw) [] s).mp hs).1
  obtain ⟨t, ht, hts⟩ := List.mem_map.mp hmem
  have ht2 := (List.mem_filter.mp ht).2
  have ht3 : t ≠ "" ∧ pyStrip t ≠ "" := by simpa using ht2
  rw [← hts]
  exact pyStrip_any_not_space t ht3.2

/-- Witness for C9 on a concrete symbol column with padding, a duplicate and
blank entries. -/
theorem load_symbols_clean_witness :
    load_symbols_from_csv [" NVDA ", "AAPL", "NVDA", "", "  "] = ["NVDA", "AAPL"]
    ∧ (load_symbols_from_csv [" NVDA ", "AAPL", "NVDA", "", "  "]).Nodup
    ∧ ("NVDA" : String).data.any (fun c => !(isSpaceB c)) = true :=
  ⟨by decide, (load_symbols_clean [" NVDA ", "AAPL", "NVDA", "", "  "]).1,
    (load_symbols_clean [" NVDA ", "AAPL", "NVDA", "", "  "]).2.1 "NVDA" (by decide)⟩
